import Mathlib

/-!
Verification of the genbu file-management service (upload-lease engine and
WOPI file-lock engine) against its natural-language specification.

The Rust sources are shallowly embedded: timestamps (`OffsetDateTime`) become
`Int` values and the impure `now_utc()` call becomes an explicit `now`
parameter; `Uuid` becomes `Nat`; `FileLock` (an opaque UTF-8 string compared
byte-exact) becomes `String`; fallible operations return `Except`/`Option`;
store mutation is explicit state passing.  Presigned URLs are opaque strings
produced by the S3 SDK, so a part URL is represented by the part number it
was presigned for.
-/

/-- Seconds in `Duration::minutes(30)`, the lock TTL used by
`DBFile::unchecked_lock` and `MemStore::lock`. -/
def lockDuration : Int := 30 * 60

/-- `DBFile` from `stores/files/database.rs`: the per-file metadata record.
`lock`/`lockExpiresAt` model the `Option<FileLock>` / `Option<OffsetDateTime>`
fields. -/
structure DBFile where
  id : Nat
  size : Int
  path : String
  lock : Option String
  lockExpiresAt : Option Int
  createdBy : Nat
  createdAt : Int
deriving DecidableEq

/-- `DBFile::is_locked`: the lock is held iff the token is present and the
expiry timestamp lies strictly in the future. -/
def DBFile.isLocked (f : DBFile) (now : Int) : Bool :=
  f.lock.isSome && f.lockExpiresAt.any (fun x => decide (x > now))

/-- `DBFile::validate_lock`: a presented token is valid iff the record is not
(currently) locked, or the held token equals the presented one. -/
def DBFile.validateLock (f : DBFile) (lk : String) (now : Int) : Bool :=
  if f.isLocked now then f.lock == some lk else true

/-- `DBFile::unchecked_unlock`: clear both lock fields. -/
def DBFile.uncheckedUnlock (f : DBFile) : DBFile :=
  { f with lock := none, lockExpiresAt := none }

/-- `DBFile::unchecked_lock`: set the token and a fresh 30-minute deadline. -/
def DBFile.uncheckedLock (f : DBFile) (lk : String) (now : Int) : DBFile :=
  { f with lock := some lk, lockExpiresAt := some (now + lockDuration) }

/-- `DBFile::unchecked_extend_lock`: refresh only the deadline. -/
def DBFile.uncheckedExtendLock (f : DBFile) (now : Int) : DBFile :=
  { f with lockExpiresAt := some (now + lockDuration) }

/-- `DBFile::lock` (named `lockOp` because `lock` is already the field name).
On failure the `Err` carries `self.lock` (the source unwraps it, which is safe
because a failed validation implies the token is present). -/
def DBFile.lockOp (f : DBFile) (lk : String) (now : Int) :
    Except (Option String) DBFile :=
  if f.validateLock lk now then .ok (f.uncheckedLock lk now)
  else .error f.lock

/-- `DBFile::unlock`. -/
def DBFile.unlockOp (f : DBFile) (lk : String) (now : Int) :
    Except (Option String) DBFile :=
  if f.validateLock lk now then .ok f.uncheckedUnlock
  else .error f.lock

/-- `DBFile::extend_lock`. -/
def DBFile.extendLockOp (f : DBFile) (lk : String) (now : Int) :
    Except (Option String) DBFile :=
  if f.validateLock lk now then .ok (f.uncheckedExtendLock now)
  else .error f.lock

/-- The backslash path separator used throughout the object-store layout. -/
def bsSep : String := "\\"

/-- Rust `str::split_terminator('\\')`: like split, but a trailing empty
piece produced by a trailing separator is dropped. -/
def splitTerminator (s : String) : List String :=
  let parts := s.splitOn bsSep
  match parts.getLast? with
  | some last => if last = "" then parts.dropLast else parts
  | none => parts

/-- `DBFile::parent_folder`: split on the separator, drop the final segment,
join the remainder. -/
def DBFile.parentFolder (f : DBFile) : String :=
  String.intercalate bsSep (splitTerminator f.path).dropLast

/-- `DBFile::name`: the final path segment, including the extension. -/
def DBFile.name (f : DBFile) : String :=
  ((f.path.splitOn bsSep).getLast?).getD ""

/-! ## Upload-lease engine (`handler/files/upload.rs`, `connectors/s3/storage.rs`) -/

/-- `MAX_FILE_SIZE` from `handler/files/upload.rs`. -/
def MAX_FILE_SIZE : Nat := 1000000000

/-- `CHUNK_SIZE` from `handler/files/upload.rs`. -/
def CHUNK_SIZE : Nat := 10000000

/-- `i32::MAX`, the bound enforced by the `chunk_index.try_into::<i32>()`
conversion inside the presign loop. -/
def I32_MAX : Nat := 2147483647

/-- `i64::MAX`, the bound enforced by `body.len().try_into::<i64>()` in
`handle_put_file` and by the `u64 -> i64` size conversion in `post`. -/
def I64_MAX : Nat := 9223372036854775807

/-- The chunk-count computation at the head of
`S3Store::get_presigned_upload_urls`:
`chunk_count = size / chunk + 1`, decremented when the size is an exact
multiple of the chunk size. -/
def chunkCount (fileSize chunkSize : Nat) : Nat :=
  let c := fileSize / chunkSize + 1
  if fileSize % chunkSize = 0 then c - 1 else c

/-- The presign loop body of `get_presigned_upload_urls`: for each
`chunk_index` the code converts the index to `i32` (failing with an error
past `i32::MAX`) and presigns a URL for `part_number = chunk_index + 1`.
Each issued URL is represented by its part number. -/
def presignPartsFrom : List Nat → Except Unit (List Nat)
  | [] => .ok []
  | i :: rest =>
    if i > I32_MAX then .error ()
    else
      match presignPartsFrom rest with
      | .ok l => .ok ((i + 1) :: l)
      | .error e => .error e

/-- `S3Store::get_presigned_upload_urls`: compute the chunk count, open the
multipart session (its id is an opaque backend string), and presign one part
URL per chunk. -/
def getPresignedUploadUrls (fileSize chunkSize : Nat) :
    Except Unit (List Nat × String) :=
  match presignPartsFrom (List.range (chunkCount fileSize chunkSize)) with
  | .ok urls => .ok (urls, "backend-upload-id")
  | .error e => .error e

/-- Observable outcome of the upload-request handler `post`
(`handler/files/upload.rs`): either a rejection, or a created lease (with its
recorded size) together with the issued part URLs and the multipart session
id. -/
inductive PostOutcome
  | fileTooLarge
  | unknownError
  | storageError
  | accepted (leaseSize : Int) (uris : List Nat) (uploadId : String)
deriving DecidableEq

/-- The handler `post`: reject sizes above `MAX_FILE_SIZE` with
`FileTooLarge`; convert the `u64` size to `i64` (the only possible failure is
`size > i64::MAX`, mapped to `Unknown`); persist a lease with that size; then
issue the presigned part URLs.  There is no check against `size = 0`. -/
def postUpload (size : Nat) : PostOutcome :=
  if size > MAX_FILE_SIZE then .fileTooLarge
  else if size > I64_MAX then .unknownError
  else
    match getPresignedUploadUrls size CHUNK_SIZE with
    | .ok (uris, uploadId) => .accepted (Int.ofNat size) uris uploadId
    | .error _ => .storageError

theorem presignPartsFrom_ok (idxs : List Nat) (h : ∀ i ∈ idxs, i ≤ I32_MAX) :
    presignPartsFrom idxs = .ok (idxs.map (· + 1)) := by
  induction idxs with
  | nil => rfl
  | cons a t ih =>
    have ha : a ≤ I32_MAX := h a (List.mem_cons_self a t)
    have ht : ∀ i ∈ t, i ≤ I32_MAX := fun i hi => h i (List.mem_cons_of_mem a hi)
    simp [presignPartsFrom, Nat.not_lt.mpr ha, ih ht]

theorem chunkCount_eq_ceil (n : Nat) (hn : 0 < n) :
    chunkCount n CHUNK_SIZE = (n + CHUNK_SIZE - 1) / CHUNK_SIZE := by
  simp only [chunkCount, CHUNK_SIZE]
  split <;> omega

theorem chunkCount_mul (k : Nat) :
    chunkCount (k * CHUNK_SIZE) CHUNK_SIZE = k := by
  simp only [chunkCount, CHUNK_SIZE]
  split <;> omega

theorem chunkCount_le (n : Nat) (h : n ≤ MAX_FILE_SIZE) :
    chunkCount n CHUNK_SIZE ≤ 101 := by
  unfold MAX_FILE_SIZE at h
  simp only [chunkCount, CHUNK_SIZE]
  split <;> omega

theorem postUpload_accepted (n : Nat) (_hn : 0 < n) (hmax : n ≤ MAX_FILE_SIZE) :
    postUpload n =
      .accepted (Int.ofNat n)
        ((List.range (chunkCount n CHUNK_SIZE)).map (· + 1))
        "backend-upload-id" := by
  have h1 : ¬ n > MAX_FILE_SIZE := by omega
  have h2 : ¬ n > I64_MAX := by
    have : MAX_FILE_SIZE ≤ I64_MAX := by decide
    omega
  have hidx : ∀ i ∈ List.range (chunkCount n CHUNK_SIZE), i ≤ I32_MAX := by
    intro i hi
    have := List.mem_range.mp hi
    have := chunkCount_le n hmax
    have : i < 101 := by omega
    have h101 : (101:Nat) ≤ I32_MAX := by decide
    omega
  unfold postUpload getPresignedUploadUrls
  simp [h1, h2, presignPartsFrom_ok _ hidx]

/-! ## In-memory metadata store (`connectors/memory.rs`) -/

/-- The `db_files` map of `MemStore`, as an association list keyed by the
file id. -/
def MemFiles : Type := List (Nat × DBFile)

/-- The body of `DBFileStore::lock for MemStore` applied to the entry found
for the file id.  The arms mirror the Rust `match` on
`(entr.lock.as_ref(), entr.lock_expires_at)` in order:
no lock held, lock expired (`t < now`), same token (refresh), different
token (conflict). -/
def memLockEntry (f : DBFile) (lk : String) (now : Int) :
    Except (Option String) DBFile :=
  match f.lock, f.lockExpiresAt with
  | none, _ => .ok (f.uncheckedLock lk now)
  | some l, some t =>
    if t < now then .ok (f.uncheckedLock lk now)
    else if l == lk then .ok (f.uncheckedExtendLock now)
    else .error (some l)
  | some l, none =>
    if l == lk then .ok (f.uncheckedExtendLock now)
    else .error (some l)

/-- `DBFileStore::lock for MemStore`: look the record up (absent records give
`Ok(None)`), run the lock state machine on it, and write the updated record
back only on success. -/
def memLock (st : MemFiles) (fid : Nat) (lk : String) (now : Int) :
    MemFiles × Except (Option String) (Option Unit) :=
  match List.find? (fun p => p.1 == fid) st with
  | none => (st, .ok none)
  | some (_, f) =>
    match memLockEntry f lk now with
    | .ok f' =>
      (List.map (fun p => if p.1 == fid then (p.1, f') else p) st,
        .ok (some ()))
    | .error l => (st, .error l)

/-! ## WOPI handlers (`handler/files/wopi.rs`) -/

/-- The tagged response envelope `WopiResponse` of the WOPI handlers. -/
inductive WopiResponse (α : Type)
  | ok (val : α)
  | notFound
  | internalServerError
deriving DecidableEq

/-- `wopi_rs` lock response: `Ok` or `Conflict` carrying `X-WOPI-Lock`. -/
inductive LockResponse
  | lockOk
  | conflict (lk : String)
deriving DecidableEq

/-- `wopi_rs` unlock response: `Ok` or `Conflict` carrying `X-WOPI-Lock`. -/
inductive UnlockResponse
  | unlockOk
  | conflict (lk : String)
deriving DecidableEq

/-- Stringification of the lock token carried by `DBFileError::Locked` when
the handler builds a `Conflict` response (the source unwraps the token,
which is provably present in every `Locked` error the stores produce). -/
def lockedToString (l : Option String) : String := l.getD ""

/-- `handle_lock` over the in-memory store: `Ok(Some) -> 200 Ok`,
`Ok(None) -> 404`, `Err(Locked(l)) -> 200-level Conflict carrying l`. -/
def handleLock (st : MemFiles) (fid : Nat) (lk : String) (now : Int) :
    MemFiles × WopiResponse LockResponse :=
  match memLock st fid lk now with
  | (st', .ok (some _)) => (st', .ok .lockOk)
  | (st', .ok none) => (st', .notFound)
  | (st', .error l) => (st', .ok (.conflict (lockedToString l)))

/-- `handle_get_lock` applied to a found record: report the held token, or
the empty string when the record is not (currently) locked. -/
def handleGetLockEntry (f : DBFile) (now : Int) : String :=
  if f.isLocked now then lockedToString f.lock else ""

/-- `DBFileStore::unlock for PgStore` applied to a found record: run
`DBFile::unlock` for the checks; on success the SQL update nulls both lock
columns (exactly `unchecked_unlock`). -/
def pgUnlockEntry (f : DBFile) (lk : String) (now : Int) :
    Except (Option String) DBFile :=
  match f.unlockOp lk now with
  | .ok f' => .ok f'
  | .error l => .error l

/-- `handle_unlock` over a looked-up record (the store is `PgStore`; the
in-memory implementation is an unimplemented stub, see the `MemOutcome`
section): `Ok(Some) -> 200 Ok`, missing record -> 404, `Locked(l)` ->
Conflict carrying l. -/
def handleUnlockEntry (f : Option DBFile) (lk : String) (now : Int) :
    Option DBFile × WopiResponse UnlockResponse :=
  match f with
  | none => (none, .notFound)
  | some f =>
    match pgUnlockEntry f lk now with
    | .ok f' => (some f', .ok .unlockOk)
    | .error l => (some f, .ok (.conflict (lockedToString l)))

/-- `wopi_rs` PutFile response as produced by `handle_put_file`. -/
inductive PutFileResponse
  | okResp
  | conflict (lk : String)
  | tooLarge
deriving DecidableEq

/-- Observable effects of `handle_put_file` on a found record: the WOPI
response, the size written through `update_dbfile` (if any), and whether the
body was uploaded to the object store. -/
structure PutFileEffects where
  response : PutFileResponse
  sizeUpdate : Option Int
  uploaded : Bool
deriving DecidableEq

/-- `handle_put_file` applied to a found record.  A presented token is
checked with `DBFile::validate_lock` (conflict carries the stored token); an
absent token conflicts (with an empty `X-WOPI-Lock`) only when the recorded
size is positive.  Then the body length is converted to `i64`
(`413 TooLarge` past `i64::MAX`), the recorded size is updated when it
changed, and the bytes are uploaded. -/
def handlePutFile (f : DBFile) (lk : Option String) (bodyLen : Nat)
    (now : Int) : PutFileEffects :=
  match lk with
  | some l =>
    if f.validateLock l now then
      if bodyLen > I64_MAX then ⟨.tooLarge, none, false⟩
      else
        ⟨.okResp,
          if f.size ≠ Int.ofNat bodyLen then some (Int.ofNat bodyLen) else none,
          true⟩
    else ⟨.conflict (lockedToString f.lock), none, false⟩
  | none =>
    if f.size > 0 then ⟨.conflict "", none, false⟩
    else
      if bodyLen > I64_MAX then ⟨.tooLarge, none, false⟩
      else
        ⟨.okResp,
          if f.size ≠ Int.ofNat bodyLen then some (Int.ofNat bodyLen) else none,
          true⟩

/-! ## Helper lemmas about the lock predicate -/

theorem isLocked_false_of_stale (f : DBFile) (t now : Int)
    (hexp : f.lockExpiresAt = some t) (h : t ≤ now) :
    f.isLocked now = false := by
  have hng : ¬ t > now := by omega
  simp [DBFile.isLocked, hexp, hng]

theorem isLocked_true_of_fresh (f : DBFile) (l' : String) (t now : Int)
    (hlock : f.lock = some l') (hexp : f.lockExpiresAt = some t)
    (h : now < t) : f.isLocked now = true := by
  have hg : t > now := by omega
  simp [DBFile.isLocked, hlock, hexp, hg]

theorem validateLock_true_of_notLocked (f : DBFile) (lk : String) (now : Int)
    (h : f.isLocked now = false) : f.validateLock lk now = true := by
  simp [DBFile.validateLock, h]

theorem validateLock_false_of_other (f : DBFile) (l' lk : String)
    (t now : Int) (hlock : f.lock = some l') (hexp : f.lockExpiresAt = some t)
    (hfresh : now < t) (hne : lk ≠ l') :
    f.validateLock lk now = false := by
  have h1 := isLocked_true_of_fresh f l' t now hlock hexp hfresh
  have h2 : l' ≠ lk := fun h => hne h.symm
  simp [DBFile.validateLock, h1, hlock, h2]

theorem uncheckedUnlock_isLocked (f : DBFile) (now : Int) :
    f.uncheckedUnlock.isLocked now = false := by
  simp [DBFile.uncheckedUnlock, DBFile.isLocked]

theorem handlePutFile_stale_eq (f : DBFile) (now : Int)
    (h : f.isLocked now = false) (lk : Option String) (bodyLen : Nat) :
    handlePutFile f lk bodyLen now =
      handlePutFile f.uncheckedUnlock lk bodyLen now := by
  have h2 := uncheckedUnlock_isLocked f now
  cases lk with
  | some l =>
    have hv1 := validateLock_true_of_notLocked f l now h
    have hv2 := validateLock_true_of_notLocked f.uncheckedUnlock l now h2
    simp only [handlePutFile, hv1, hv2, if_true]
    simp [DBFile.uncheckedUnlock]
  | none => simp [handlePutFile, DBFile.uncheckedUnlock]

/-! ## Concrete fixture records used by witnesses and counterexamples -/

/-- A record of size 0 holding the lock "a" until time 100. -/
def wLockedFile : DBFile :=
  ⟨5, 0, "u\\doc.txt", some "a", some 100, 7, 0⟩

/-- A record of size 5 holding the lock "a" until time 100. -/
def wLockedFilePos : DBFile :=
  ⟨6, 5, "u\\doc2.txt", some "a", some 100, 7, 0⟩

/-- A record with no lock fields set. -/
def wUnlockedFile : DBFile :=
  ⟨8, 3, "u\\doc3.txt", none, none, 7, 0⟩

/-- A record whose lock "a" expired at time 5. -/
def wStaleFile : DBFile :=
  ⟨9, 4, "u\\doc4.txt", some "a", some 5, 7, 0⟩

/-! ## Claim C1 -/

/-- C1 (amended): for a record holding an unexpired lock L', a Lock request
with a different token leaves the store unchanged and returns Conflict
carrying L', and a PutFile presenting a token different from L' fails with a
conflict carrying L' and performs no write.  (The original claim's further
clause, that every write not presenting L' conflicts, fails for a PutFile
presenting no token on a size-0 record; see the counterexample.) -/
theorem c1_lock_exclusivity (st : MemFiles) (fid : Nat) (f : DBFile)
    (l' lk : String) (t now : Int)
    (hfind : List.find? (fun p => p.1 == fid) st = some (fid, f))
    (hlock : f.lock = some l') (hexp : f.lockExpiresAt = some t)
    (hfresh : now < t) (hne : lk ≠ l') :
    memLock st fid lk now = (st, .error (some l')) ∧
    handleLock st fid lk now = (st, .ok (.conflict l')) ∧
    (∀ x blen, x ≠ l' →
      handlePutFile f (some x) blen now = ⟨.conflict l', none, false⟩) := by
  have hnl : ¬ t < now := by omega
  have hne' : l' ≠ lk := fun h => hne h.symm
  have hentry : memLockEntry f lk now = .error (some l') := by
    simp [memLockEntry, hlock, hexp, hnl, hne']
  have hmem : memLock st fid lk now = (st, .error (some l')) := by
    simp [memLock, hfind, hentry]
  refine ⟨hmem, ?_, ?_⟩
  · simp [handleLock, hmem, lockedToString]
  · intro x blen hx
    have hv := validateLock_false_of_other f l' x t now hlock hexp hfresh hx
    simp [handlePutFile, hv, hlock, lockedToString]

/-- C1 witness: instantiation of `c1_lock_exclusivity` at concrete inputs. -/
theorem c1_lock_exclusivity_witness :
    (0:Int) < 100 ∧ "b" ≠ "a" ∧
    memLock [(5, wLockedFile)] 5 "b" 0 =
      ([(5, wLockedFile)], .error (some "a")) ∧
    handleLock [(5, wLockedFile)] 5 "b" 0 =
      ([(5, wLockedFile)], .ok (.conflict "a")) ∧
    handlePutFile wLockedFile (some "c") 3 0 = ⟨.conflict "a", none, false⟩ := by
  have h := c1_lock_exclusivity [(5, wLockedFile)] 5 wLockedFile "a" "b" 100 0
    (by decide) (by rfl) (by rfl) (by decide) (by decide)
  exact ⟨by decide, by decide, h.1, h.2.1, h.2.2 "c" 3 (by decide)⟩

/-- C1 counterexample: the locked size-0 record accepts a PutFile that
presents no token at all — a write operation that does not present the held
token yet does not fail with a lock conflict. -/
theorem c1_putfile_no_token_cex :
    wLockedFile.isLocked 0 = true ∧
    (handlePutFile wLockedFile none 3 0).uploaded = true ∧
    (handlePutFile wLockedFile none 3 0).response = .okResp := by decide

/-! ## Claim C4 -/

/-- C4 (amended): for a record holding an unexpired lock L', a PutFile
presenting a token different from L' returns Conflict carrying L' and leaves
the stored bytes and the recorded size untouched; a PutFile presenting no
token is refused with an empty lock value (not L') when the recorded size is
positive, and is accepted despite the lock when the recorded size is 0. -/
theorem c4_putfile_lock_guard (f : DBFile) (l' : String) (t now : Int)
    (hlock : f.lock = some l') (hexp : f.lockExpiresAt = some t)
    (hfresh : now < t) :
    (∀ x blen, x ≠ l' →
      handlePutFile f (some x) blen now = ⟨.conflict l', none, false⟩) ∧
    (∀ blen, 0 < f.size →
      handlePutFile f none blen now = ⟨.conflict "", none, false⟩) ∧
    (∀ blen, f.size ≤ 0 → blen ≤ I64_MAX →
      (handlePutFile f none blen now).uploaded = true) := by
  refine ⟨?_, ?_, ?_⟩
  · intro x blen hx
    have hv := validateLock_false_of_other f l' x t now hlock hexp hfresh hx
    simp [handlePutFile, hv, hlock, lockedToString]
  · intro blen hpos
    simp [handlePutFile, hpos]
  · intro blen hsz hblen
    have h1 : ¬ (0:Int) < f.size := by omega
    have h2 : ¬ blen > I64_MAX := by omega
    simp [handlePutFile, h1, h2]

/-- C4 witness: instantiation of `c4_putfile_lock_guard` at concrete
inputs. -/
theorem c4_putfile_lock_guard_witness :
    (0:Int) < 100 ∧ "b" ≠ "a" ∧ (0:Int) < wLockedFilePos.size ∧
    handlePutFile wLockedFilePos (some "b") 3 0 =
      ⟨.conflict "a", none, false⟩ ∧
    handlePutFile wLockedFilePos none 3 0 = ⟨.conflict "", none, false⟩ := by
  have h := c4_putfile_lock_guard wLockedFilePos "a" 100 0
    (by rfl) (by rfl) (by decide)
  exact ⟨by decide, by decide, by decide,
    h.1 "b" 3 (by decide), h.2.1 3 (by decide)⟩

/-- C4 counterexample: on a locked record of positive size, a PutFile
presenting no token is answered with an empty `X-WOPI-Lock` value, not with
the held token "a" as the claim states. -/
theorem c4_putfile_absent_token_cex :
    wLockedFilePos.isLocked 0 = true ∧ wLockedFilePos.lock = some "a" ∧
    (handlePutFile wLockedFilePos none 3 0).response = .conflict "" ∧
    (handlePutFile wLockedFilePos none 3 0).response ≠ .conflict "a" := by
  decide

/-! ## Claim C5 -/

/-- C5 (amended): an Unlock(L) on a record with no held lock succeeds — the
store clears the lock fields (a no-op when they were already empty) and the
handler answers 200 Ok, not 409 Conflict as the claim states. -/
theorem c5_unlock_no_lock (f : DBFile) (lk : String) (now : Int)
    (h : f.isLocked now = false) :
    DBFile.unlockOp f lk now = .ok f.uncheckedUnlock ∧
    handleUnlockEntry (some f) lk now =
      (some f.uncheckedUnlock, .ok .unlockOk) ∧
    (f.lock = none → f.lockExpiresAt = none → f.uncheckedUnlock = f) := by
  have hv := validateLock_true_of_notLocked f lk now h
  have hop : DBFile.unlockOp f lk now = .ok f.uncheckedUnlock := by
    simp [DBFile.unlockOp, hv]
  refine ⟨hop, ?_, ?_⟩
  · simp [handleUnlockEntry, pgUnlockEntry, hop]
  · intro h1 h2
    cases f
    simp_all [DBFile.uncheckedUnlock]

/-- C5 witness: instantiation of `c5_unlock_no_lock` at a concrete unlocked
record. -/
theorem c5_unlock_no_lock_witness :
    wUnlockedFile.isLocked 0 = false ∧
    DBFile.unlockOp wUnlockedFile "x" 0 = .ok wUnlockedFile.uncheckedUnlock ∧
    handleUnlockEntry (some wUnlockedFile) "x" 0 =
      (some wUnlockedFile.uncheckedUnlock, .ok .unlockOk) ∧
    wUnlockedFile.uncheckedUnlock = wUnlockedFile := by
  have h := c5_unlock_no_lock wUnlockedFile "x" 0 (by decide)
  exact ⟨by decide, h.1, h.2.1, h.2.2 (by rfl) (by rfl)⟩

/-- C5 counterexample: Unlock on an unlocked record returns Ok, not the
409 Conflict with an empty lock value that the claim states. -/
theorem c5_unlock_no_lock_cex :
    wUnlockedFile.isLocked 0 = false ∧
    (handleUnlockEntry (some wUnlockedFile) "x" 0).2 = .ok .unlockOk ∧
    (handleUnlockEntry (some wUnlockedFile) "x" 0).2 ≠ .ok (.conflict "") := by
  decide

/-! ## Claim C6 -/

/-- C6 (amended): a held lock whose deadline t satisfies t ≤ now is treated
as absent by every transition that goes through `DBFile::is_locked`
(GetLock reports an empty lock, Unlock succeeds, PutFile behaves exactly as
on the cleared record); the in-memory store's Lock acquires for any token
only when t < now strictly — at t = now it still reports a conflict for a
differing token (see the counterexample). -/
theorem c6_stale_lock_absent (f : DBFile) (l0 : String) (t now : Int)
    (hlock : f.lock = some l0) (hexp : f.lockExpiresAt = some t)
    (hstale : t ≤ now) :
    f.isLocked now = false ∧
    (∀ lk, DBFile.unlockOp f lk now = .ok f.uncheckedUnlock) ∧
    handleGetLockEntry f now = "" ∧
    (∀ lk blen, handlePutFile f lk blen now =
      handlePutFile f.uncheckedUnlock lk blen now) ∧
    (∀ lk, t < now → memLockEntry f lk now = .ok (f.uncheckedLock lk now)) := by
  have h := isLocked_false_of_stale f t now hexp hstale
  refine ⟨h, ?_, ?_, ?_, ?_⟩
  · intro lk
    simp [DBFile.unlockOp, validateLock_true_of_notLocked f lk now h]
  · simp [handleGetLockEntry, h]
  · intro lk blen
    exact handlePutFile_stale_eq f now h lk blen
  · intro lk hlt
    simp [memLockEntry, hlock, hexp, hlt]

/-- C6 witness: instantiation of `c6_stale_lock_absent` at a record whose
lock expired at time 5, observed at time 10. -/
theorem c6_stale_lock_absent_witness :
    (5:Int) ≤ 10 ∧ (5:Int) < 10 ∧
    wStaleFile.isLocked 10 = false ∧
    DBFile.unlockOp wStaleFile "z" 10 = .ok wStaleFile.uncheckedUnlock ∧
    handleGetLockEntry wStaleFile 10 = "" ∧
    handlePutFile wStaleFile (some "z") 3 10 =
      handlePutFile wStaleFile.uncheckedUnlock (some "z") 3 10 ∧
    memLockEntry wStaleFile "z" 10 = .ok (wStaleFile.uncheckedLock "z" 10) := by
  have h := c6_stale_lock_absent wStaleFile "a" 5 10 (by rfl) (by rfl)
    (by decide)
  exact ⟨by decide, by decide, h.1, h.2.1 "z", h.2.2.1,
    h.2.2.2.1 (some "z") 3, h.2.2.2.2 "z" (by decide)⟩

/-- C6 counterexample: at exactly t = now the record is already treated as
unlocked by `is_locked`, yet the in-memory store's Lock still answers
Conflict for a differing token — refuting the claim that a lock with
deadline ≤ now is treated as absent by every transition. -/
theorem c6_mem_boundary_cex :
    wStaleFile.isLocked 5 = false ∧
    memLockEntry wStaleFile "b" 5 = .error (some "a") :=
  ⟨by decide, by rfl⟩

/-! ## Upload leases and FinishUpload (`connectors/s3/database.rs`,
`connectors/memory.rs`, `handler/files/upload.rs`) -/

/-- The `Bucket` enum of `stores/files/storage.rs`. -/
inductive Bucket
  | profileImages
  | videoFiles
  | userFiles
  | notebookFiles
deriving DecidableEq

/-- `Bucket::to_bucket_name`. -/
def Bucket.toBucketName : Bucket → String
  | .profileImages => "avatars"
  | .videoFiles => "videos"
  | .userFiles => "userfiles"
  | .notebookFiles => "notebookfiles"

/-- `UploadLease` from `stores/files/database.rs`. -/
structure UploadLease where
  id : Nat
  s3UploadId : String
  owner : Nat
  completed : Bool
  size : Int
  createdAt : Int
  expiresAt : Int
  bucket : Bucket
  leaseName : String
deriving DecidableEq

/-- `UploadLeaseError` from `stores/files/database.rs` (the boxed causes of
the `Connection`/`Other` variants are dropped). -/
inductive UploadLeaseError
  | connection
  | invalidSize
  | leaseExpired (id : Nat)
  | otherError
deriving DecidableEq

/-- The `IntoResponse` mapping for `UploadLeaseError` in
`server/routes/files/mod.rs`: `Connection -> 502`, `InvalidSize -> 400`,
`LeaseExpired -> 410 Gone`, `Other -> 500`. -/
def uploadLeaseErrorStatus : UploadLeaseError → Nat
  | .connection => 502
  | .invalidSize => 400
  | .leaseExpired _ => 410
  | .otherError => 500

/-- `UploadLeaseStore::mark_completed for PgStore`: fetch the lease; a
missing lease gives `Ok(None)`; an expired lease (`now > expires_at`) gives
`Err(LeaseExpired)` before any update; otherwise the row's `completed` flag
is set.  The pair carries the store state after the call together with the
returned value. -/
def pgMarkCompleted (lease? : Option UploadLease) (now : Int) :
    Option UploadLease × Except UploadLeaseError (Option UploadLease) :=
  match lease? with
  | none => (none, .ok none)
  | some lease =>
    if now > lease.expiresAt then
      (some lease, .error (.leaseExpired lease.id))
    else
      (some { lease with completed := true },
        .ok (some { lease with completed := true }))

/-- `UploadLeaseStore::mark_completed for MemStore`: the lease is marked
completed unconditionally — there is no expiry check. -/
def memMarkCompleted (lease? : Option UploadLease) :
    Option UploadLease × Option UploadLease :=
  match lease? with
  | none => (none, none)
  | some lease =>
    (some { lease with completed := true },
      some { lease with completed := true })

/-- A client-supplied part acknowledgement (`Part` in
`stores/files/storage.rs`). -/
structure UploadPart where
  eTag : String
  partNumber : Int
deriving DecidableEq

/-- The arguments the handler passes to the `FileStorage`
`finish_multipart_upload` trait call. -/
structure FinishInvocation where
  bucket : String
  objectName : String
  uploadId : String
  parts : List UploadPart
deriving DecidableEq

/-- Outcome of the handler `finish_upload`: lease-store failure, missing
lease, or the multipart completion invoked with the lease's bucket and name
and the request's upload id and parts. -/
inductive FinishOutcome
  | leaseError (e : UploadLeaseError)
  | notFound
  | completed (inv : FinishInvocation)
deriving DecidableEq

/-- `finish_upload` from `handler/files/upload.rs`, parameterized by the
result of `mark_completed`: errors propagate, `None` becomes `NotFound`, and
otherwise `finish_multipart_upload` is invoked with the client's `upload_id`
and `parts` verbatim. -/
def finishUploadWith (markResult : Except UploadLeaseError (Option UploadLease))
    (uploadId : String) (parts : List UploadPart) : FinishOutcome :=
  match markResult with
  | .error e => .leaseError e
  | .ok none => .notFound
  | .ok (some lease) =>
    .completed ⟨lease.bucket.toBucketName, lease.leaseName, uploadId, parts⟩

/-- `finish_upload` running against the Postgres lease store. -/
def pgFinishUpload (lease? : Option UploadLease) (now : Int)
    (uploadId : String) (parts : List UploadPart) : FinishOutcome :=
  finishUploadWith (pgMarkCompleted lease? now).2 uploadId parts

/-- `finish_upload` running against the in-memory lease store (whose
`mark_completed` never fails). -/
def memFinishUpload (lease? : Option UploadLease)
    (uploadId : String) (parts : List UploadPart) : FinishOutcome :=
  finishUploadWith (.ok (memMarkCompleted lease?).2) uploadId parts

/-! ## S3 multipart completion (`connectors/s3/storage.rs`) -/

/-- A part as reported by the S3 backend's `ListParts` call. -/
structure S3Part where
  eTag : Option String
  partNumber : Int
  checksumSha1 : Option String
  checksumCrc32 : Option String
  checksumSha256 : Option String
  checksumCrc32c : Option String
deriving DecidableEq

/-- A `CompletedPart` handed to `CompleteMultipartUpload`. -/
structure CompletedPart where
  eTag : Option String
  partNumber : Int
  checksumSha1 : Option String
  checksumCrc32 : Option String
  checksumSha256 : Option String
  checksumCrc32c : Option String
deriving DecidableEq

/-- `part_to_completed` from `connectors/s3/storage.rs`. -/
def partToCompleted (p : S3Part) : CompletedPart :=
  ⟨p.eTag, p.partNumber, p.checksumSha1, p.checksumCrc32, p.checksumSha256,
    p.checksumCrc32c⟩

/-- `S3Store::finish_multipart_upload`: the parts list passed to
`CompleteMultipartUpload` is built from the backend's `ListParts` response —
the function does not consume any client-supplied parts list. -/
def s3FinishMultipartUpload (listedParts : List S3Part) : List CompletedPart :=
  listedParts.map partToCompleted

/-- Projection of a completed part to the (part_number, e_tag) pair the
claim speaks about. -/
def completedKey (c : CompletedPart) : Int × Option String :=
  (c.partNumber, c.eTag)

/-- Projection of a listed part to its (part_number, e_tag) pair. -/
def listedKey (p : S3Part) : Int × Option String :=
  (p.partNumber, p.eTag)

/-- Projection of a client part to its (part_number, e_tag) pair. -/
def clientKey (q : UploadPart) : Int × Option String :=
  (q.partNumber, some q.eTag)

/-! ## Claim C3 -/

/-- C3 (amended): against the Postgres lease store, FinishUpload on an
expired lease fails with `LeaseExpired` (mapped to 410 Gone), the lease is
not marked completed, and no multipart completion is attempted.  (The
in-memory store's `mark_completed` performs no expiry check; see the
counterexample.) -/
theorem c3_lease_expired_pg (lease : UploadLease) (now : Int)
    (uploadId : String) (parts : List UploadPart)
    (hexpired : now > lease.expiresAt) (hflag : lease.completed = false) :
    pgMarkCompleted (some lease) now =
      (some lease, .error (.leaseExpired lease.id)) ∧
    ((pgMarkCompleted (some lease) now).1.map (·.completed)) = some false ∧
    pgFinishUpload (some lease) now uploadId parts =
      .leaseError (.leaseExpired lease.id) ∧
    uploadLeaseErrorStatus (.leaseExpired lease.id) = 410 := by
  have hmark : pgMarkCompleted (some lease) now =
      (some lease, .error (.leaseExpired lease.id)) := by
    simp [pgMarkCompleted, hexpired]
  refine ⟨hmark, ?_, ?_, rfl⟩
  · simp [hmark, hflag]
  · simp [pgFinishUpload, hmark, finishUploadWith]

/-- C3 witness: instantiation of `c3_lease_expired_pg` at a lease that
expired at time 0 and is finished at time 100. -/
theorem c3_lease_expired_pg_witness :
    (100:Int) > 0 ∧
    pgMarkCompleted (some ⟨1, "sid", 2, false, 5, 0, 0, .userFiles, "n"⟩) 100 =
      (some ⟨1, "sid", 2, false, 5, 0, 0, .userFiles, "n"⟩,
        .error (.leaseExpired 1)) ∧
    pgFinishUpload (some ⟨1, "sid", 2, false, 5, 0, 0, .userFiles, "n"⟩) 100
      "uid" [] = .leaseError (.leaseExpired 1) ∧
    uploadLeaseErrorStatus (.leaseExpired 1) = 410 := by
  have h := c3_lease_expired_pg ⟨1, "sid", 2, false, 5, 0, 0, .userFiles, "n"⟩
    100 "uid" [] (by decide) (by rfl)
  exact ⟨by decide, h.1, h.2.2.1, h.2.2.2⟩

/-- C3 counterexample: the in-memory store marks an expired lease completed
and FinishUpload proceeds to the multipart completion — refuting the claim
for that store: the `completed` flag does not remain false and the
completion is attempted. -/
theorem c3_mem_ignores_expiry_cex :
    (memMarkCompleted (some ⟨1, "sid", 2, false, 5, 0, 0, .userFiles, "n"⟩)).1
      = some ⟨1, "sid", 2, true, 5, 0, 0, .userFiles, "n"⟩ ∧
    memFinishUpload (some ⟨1, "sid", 2, false, 5, 0, 0, .userFiles, "n"⟩)
      "uid" [] = .completed ⟨"userfiles", "n", "uid", []⟩ := by
  exact ⟨by rfl, by rfl⟩

/-! ## Claim C8 -/

/-- C8 (amended): the handler `finish_upload` passes the client's parts list
verbatim to the `FileStorage` trait call, but the S3 implementation builds
the `CompleteMultipartUpload` parts from the backend's `ListParts` response;
the invocation carries exactly the client's (part_number, e_tag) pairs only
when the backend listing agrees with them. -/
theorem c8_finish_parts (mk : Except UploadLeaseError (Option UploadLease))
    (uploadId : String) (parts : List UploadPart) (inv : FinishInvocation)
    (listed : List S3Part)
    (hcomp : finishUploadWith mk uploadId parts = .completed inv)
    (hagree : listed.map listedKey = parts.map clientKey) :
    inv.parts = parts ∧ inv.uploadId = uploadId ∧
    (s3FinishMultipartUpload listed).map completedKey = listed.map listedKey ∧
    (s3FinishMultipartUpload listed).map completedKey = parts.map clientKey := by
  have hkeys : (s3FinishMultipartUpload listed).map completedKey =
      listed.map listedKey := by
    simp only [s3FinishMultipartUpload, List.map_map]
    exact List.map_congr_left fun a _ => rfl
  refine ⟨?_, ?_, hkeys, hkeys.trans hagree⟩
  · cases mk with
    | error e => simp [finishUploadWith] at hcomp
    | ok o =>
      cases o with
      | none => simp [finishUploadWith] at hcomp
      | some lease =>
        simp [finishUploadWith] at hcomp
        exact (congrArg FinishInvocation.parts hcomp).symm
  · cases mk with
    | error e => simp [finishUploadWith] at hcomp
    | ok o =>
      cases o with
      | none => simp [finishUploadWith] at hcomp
      | some lease =>
        simp [finishUploadWith] at hcomp
        exact (congrArg FinishInvocation.uploadId hcomp).symm

/-- C8 witness: instantiation of `c8_finish_parts` at a one-part upload
whose backend listing agrees with the client's acknowledgement. -/
theorem c8_finish_parts_witness :
    finishUploadWith (.ok (some ⟨1, "sid", 2, true, 5, 0, 9, .userFiles, "n"⟩))
      "uid" [⟨"X", 1⟩] = .completed ⟨"userfiles", "n", "uid", [⟨"X", 1⟩]⟩ ∧
    ([⟨some "X", 1, none, none, none, none⟩] : List S3Part).map listedKey =
      ([⟨"X", 1⟩] : List UploadPart).map clientKey ∧
    (⟨"userfiles", "n", "uid", [⟨"X", 1⟩]⟩ : FinishInvocation).parts
      = [⟨"X", 1⟩] ∧
    (s3FinishMultipartUpload [⟨some "X", 1, none, none, none, none⟩]).map
      completedKey = ([⟨"X", 1⟩] : List UploadPart).map clientKey := by
  have h := c8_finish_parts
    (.ok (some ⟨1, "sid", 2, true, 5, 0, 9, .userFiles, "n"⟩)) "uid"
    [⟨"X", 1⟩] ⟨"userfiles", "n", "uid", [⟨"X", 1⟩]⟩
    [⟨some "X", 1, none, none, none, none⟩] (by rfl) (by rfl)
  exact ⟨by rfl, by rfl, h.1, h.2.2.2⟩

/-- C8 counterexample: when the backend listing disagrees with the client's
parts list, `CompleteMultipartUpload` is invoked with the listed parts, not
with the client-supplied pairs — the claim that the exact client list is
used fails. -/
theorem c8_listed_parts_cex :
    (s3FinishMultipartUpload [⟨some "X", 1, none, none, none, none⟩]).map
      completedKey = [(1, some "X")] ∧
    ([(⟨"Y", 1⟩ : UploadPart)]).map clientKey = [(1, some "Y")] ∧
    (s3FinishMultipartUpload [⟨some "X", 1, none, none, none, none⟩]).map
      completedKey ≠ ([(⟨"Y", 1⟩ : UploadPart)]).map clientKey := by
  refine ⟨by rfl, by rfl, by decide⟩

/-! ## Claim C7 -/

/-- C7 (amended): the upload-request handler rejects sizes above
`MAX_FILE_SIZE` with `FileTooLarge`, but it performs no `size ≤ 0` check:
a request of size 0 is accepted — a lease of size 0 is persisted, a
multipart session is opened, and zero part URLs are issued.  (Negative sizes
are unrepresentable in the `u64` request field and are rejected as a JSON
deserialization failure before the handler runs.) -/
theorem c7_size_validation (size : Nat) (hbig : size > MAX_FILE_SIZE) :
    postUpload size = .fileTooLarge ∧
    postUpload 0 = .accepted 0 [] "backend-upload-id" := by
  constructor
  · simp [postUpload, hbig]
  · rfl

/-- C7 witness: instantiation of `c7_size_validation` just past the size
bound (the spec's oversize scenario uses 1 000 000 100). -/
theorem c7_size_validation_witness :
    1000000100 > MAX_FILE_SIZE ∧
    postUpload 1000000100 = .fileTooLarge ∧
    postUpload 0 = .accepted 0 [] "backend-upload-id" := by
  have h := c7_size_validation 1000000100 (by decide)
  exact ⟨by decide, h.1, h.2⟩

/-- C7 counterexample: a size-0 upload request is not rejected with
`InvalidSize` — it is accepted, creating a lease (of size 0) and a multipart
session with an empty URL list. -/
theorem c7_zero_size_cex :
    postUpload 0 = .accepted 0 [] "backend-upload-id" ∧
    postUpload 0 ≠ .unknownError ∧ postUpload 0 ≠ .fileTooLarge := by
  refine ⟨by rfl, by decide, by decide⟩

/-! ## Claim C10 -/

/-- Result of calling a store operation that may hit an unimplemented
`todo!()` stub: either the call panics, or it returns a value. -/
inductive MemOutcome (α : Type)
  | panics
  | returns (val : α)

/-- `DBFileStore::unlock for MemStore` — the body is `todo!()`, which panics
unconditionally for every file id and every token. -/
def memUnlockStub (st : MemFiles) (fid : Nat) (lk : String) :
    MemOutcome (MemFiles × Except (Option String) (Option Unit)) :=
  .panics

/-- `DBFileStore::extend_lock for MemStore` — likewise a `todo!()` stub. -/
def memExtendLockStub (st : MemFiles) (fid : Nat) (lk : String) :
    MemOutcome (MemFiles × Except (Option String) (Option Unit)) :=
  .panics

/-- `DBFileStore::lock for MemStore` is the one implemented operation: it
always returns. -/
def memLockOutcome (st : MemFiles) (fid : Nat) (lk : String) (now : Int) :
    MemOutcome (MemFiles × Except (Option String) (Option Unit)) :=
  .returns (memLock st fid lk now)

/-- `handle_unlock` composed with the in-memory store: the panic of the stub
propagates, so no WOPI response is ever produced. -/
def handleUnlockMemStore (st : MemFiles) (fid : Nat) (lk : String) :
    MemOutcome (WopiResponse UnlockResponse) :=
  match memUnlockStub st fid lk with
  | .panics => .panics
  | .returns (_, .ok (some _)) => .returns (.ok .unlockOk)
  | .returns (_, .ok none) => .returns .notFound
  | .returns (_, .error l) => .returns (.ok (.conflict (lockedToString l)))

/-- C10: the in-memory store's `unlock` and `extend_lock` are `todo!()`
stubs — for every store state, file id and token they panic instead of
returning, so the WOPI Unlock handler can never complete against that store
(and UnlockAndRelock/RefreshLock, which need those operations, cannot
either); `lock` is implemented and always returns. -/
theorem c10_mem_stubs (st : MemFiles) (fid : Nat) (lk : String) (now : Int) :
    memUnlockStub st fid lk = .panics ∧
    memExtendLockStub st fid lk = .panics ∧
    handleUnlockMemStore st fid lk = .panics ∧
    memLockOutcome st fid lk now = .returns (memLock st fid lk now) ∧
    memLockOutcome st fid lk now ≠ .panics := by
  refine ⟨rfl, rfl, rfl, rfl, ?_⟩
  intro h
  exact MemOutcome.noConfusion h

/-! ## PutRelativeFile, suggested mode (`handler/files/wopi.rs`) -/

/-- The literal dot the handler compares the suggested target against. -/
def dotStr : String := "."

/-- The initial suggestion of `handle_put_relative_file_suggested`: a target
beginning with a dot is an extension appended to the base file's name. -/
def initialSuggestion (f : DBFile) (suggestedTarget : String) : String :=
  if suggestedTarget.startsWith dotStr then f.name ++ suggestedTarget
  else suggestedTarget

/-- The candidate-probe loop of `handle_put_relative_file_suggested`:
build `parent + "\" + suggestion`, query the store for that path, and on a
hit increment the counter and prefix its decimal representation to the
suggestion.  The Rust loop is unbounded; the embedding spends one unit of
fuel per probe, and `none` means the loop did not finish within `fuel`
probes.  The store is the list of paths present in the metadata store. -/
def probeLoop (paths : List String) (parent : String) :
    Nat → Nat → String → Option (String × String)
  | 0, _, _ => none
  | fuel+1, counter, sugg =>
    if (parent ++ bsSep ++ sugg) ∈ paths then
      probeLoop paths parent fuel (counter + 1) (Nat.repr (counter + 1) ++ sugg)
    else some (parent ++ bsSep ++ sugg, sugg)

/-- `handle_put_relative_file_suggested`, up to the probe loop: the chosen
path and final suggestion (the subsequent record insertion, upload and
token issuance are straight-line code on the result). -/
def handlePutRelativeSuggested (paths : List String) (f : DBFile)
    (suggestedTarget : String) (fuel : Nat) : Option (String × String) :=
  probeLoop paths f.parentFolder fuel 1 (initialSuggestion f suggestedTarget)

theorem toDigitsCore_len_ge (b : Nat) :
    ∀ (fuel n : Nat) (ds : List Char),
      ds.length ≤ (Nat.toDigitsCore b fuel n ds).length := by
  intro fuel
  induction fuel with
  | zero => intro n ds; simp [Nat.toDigitsCore]
  | succ f ih =>
    intro n ds
    simp only [Nat.toDigitsCore]
    split
    · simp
    · calc ds.length ≤ ((n % b).digitChar :: ds).length := by simp
        _ ≤ _ := ih (n / b) _

theorem repr_length_pos (n : Nat) : 1 ≤ (Nat.repr n).length := by
  show 1 ≤ (String.length (List.asString (Nat.toDigits 10 n)))
  simp only [String.length, List.asString, Nat.toDigits]
  simp only [Nat.toDigitsCore]
  split
  · simp
  · exact le_trans (by simp) (toDigitsCore_len_ge 10 n (n / 10) _)

/-- The termination measure for the probe loop: how many store paths are at
least as long as the current candidate.  Every probe that hits shortens this
measure, because the next candidate is strictly longer (the prefixed decimal
counter is nonempty) while the hit path is exactly as long as the candidate. -/
def staleCount (paths : List String) (cand : String) : Nat :=
  (paths.filter (fun p => decide (cand.length ≤ p.length))).length

theorem filter_length_mono (l : List String) (P Q : String → Bool)
    (h : ∀ p, Q p = true → P p = true) :
    (l.filter Q).length ≤ (l.filter P).length := by
  induction l with
  | nil => simp
  | cons a t ih =>
    rw [List.filter_cons, List.filter_cons]
    cases hQ : Q a
    · cases hP : P a
      · simpa using ih
      · simpa using Nat.le_succ_of_le ih
    · rw [h a hQ]
      simpa using Nat.succ_le_succ ih

theorem filter_length_lt (l : List String) (P Q : String → Bool) (x : String)
    (h : ∀ p, Q p = true → P p = true) (hx : x ∈ l) (hPx : P x = true)
    (hQx : Q x = false) :
    (l.filter Q).length < (l.filter P).length := by
  induction l with
  | nil => cases hx
  | cons a t ih =>
    rw [List.filter_cons, List.filter_cons]
    rcases List.mem_cons.mp hx with rfl | hmem
    · rw [hPx, hQx]
      simpa using Nat.lt_succ_of_le (filter_length_mono t P Q h)
    · cases hQ : Q a
      · cases hP : P a
        · simpa using ih hmem
        · simpa using Nat.lt_succ_of_le (le_of_lt (ih hmem))
      · rw [h a hQ]
        simpa using Nat.succ_lt_succ (ih hmem)

theorem staleCount_step (paths : List String) (parent sugg : String)
    (c : Nat) (hmem : (parent ++ bsSep ++ sugg) ∈ paths) :
    staleCount paths (parent ++ bsSep ++ (Nat.repr c ++ sugg)) <
      staleCount paths (parent ++ bsSep ++ sugg) := by
  have hlen : (parent ++ bsSep ++ sugg).length <
      (parent ++ bsSep ++ (Nat.repr c ++ sugg)).length := by
    have := repr_length_pos c
    simp only [String.length_append]
    omega
  apply filter_length_lt paths _ _ (parent ++ bsSep ++ sugg)
  · intro p hp
    simp only [decide_eq_true_eq] at hp ⊢
    omega
  · exact hmem
  · simp
  · simp only [decide_eq_false_iff_not]
    omega

theorem probeLoop_total_aux (paths : List String) (parent : String) :
    ∀ (fuel counter : Nat) (sugg : String),
      staleCount paths (parent ++ bsSep ++ sugg) < fuel →
      (probeLoop paths parent fuel counter sugg).isSome = true := by
  intro fuel
  induction fuel with
  | zero => intro counter sugg h; omega
  | succ f ih =>
    intro counter sugg h
    by_cases hmem : (parent ++ bsSep ++ sugg) ∈ paths
    · rw [probeLoop, if_pos hmem]
      apply ih
      have hstep := staleCount_step paths parent sugg (counter + 1) hmem
      omega
    · rw [probeLoop, if_neg hmem]
      rfl

theorem staleCount_le (paths : List String) (cand : String) :
    staleCount paths cand ≤ paths.length :=
  List.length_filter_le _ _

/-- The sequence of suggestions the loop generates from an initial
suggestion `s`: step k+1 prefixes the decimal counter value k+2 (the counter
starts at 1 and is incremented before being prefixed). -/
def suggSeq (s : String) : Nat → String
  | 0 => s
  | k+1 => Nat.repr (k + 2) ++ suggSeq s k

/-- A store holding exactly the first n candidate paths the loop will probe:
on it, the loop collides n times before finding a free path. -/
def collidingPaths (parent s : String) (n : Nat) : List String :=
  (List.range n).map (fun k => parent ++ bsSep ++ suggSeq s k)

theorem suggSeq_len_step (s : String) (k : Nat) :
    (suggSeq s k).length < (suggSeq s (k + 1)).length := by
  have h := repr_length_pos (k + 2)
  simp only [suggSeq, String.length_append]
  omega

theorem suggSeq_len_mono (s : String) : ∀ {j k : Nat}, j < k →
    (suggSeq s j).length < (suggSeq s k).length := by
  intro j k
  induction k with
  | zero => omega
  | succ m ih =>
    intro h
    rcases Nat.lt_succ_iff_lt_or_eq.mp h with h' | heq
    · exact lt_trans (ih h') (suggSeq_len_step s m)
    · rw [heq]; exact suggSeq_len_step s m

theorem cand_mem (parent s : String) {k n : Nat} (h : k < n) :
    (parent ++ bsSep ++ suggSeq s k) ∈ collidingPaths parent s n :=
  List.mem_map.mpr ⟨k, List.mem_range.mpr h, rfl⟩

theorem cand_not_mem (parent s : String) (n : Nat) :
    (parent ++ bsSep ++ suggSeq s n) ∉ collidingPaths parent s n := by
  intro h
  obtain ⟨k, hk, heq⟩ := List.mem_map.mp h
  have hlen := congrArg String.length heq
  simp only [String.length_append] at hlen
  have := suggSeq_len_mono s (List.mem_range.mp hk)
  omega

theorem probeLoop_colliding (parent s : String) (n : Nat) :
    ∀ (fuel j : Nat), j ≤ n →
      probeLoop (collidingPaths parent s n) parent fuel (j + 1) (suggSeq s j) =
        if n - j < fuel
        then some (parent ++ bsSep ++ suggSeq s n, suggSeq s n)
        else none := by
  intro fuel
  induction fuel with
  | zero =>
    intro j hj
    rw [probeLoop, if_neg (by omega)]
  | succ f ih =>
    intro j hj
    rcases Nat.lt_or_ge j n with hlt | hge
    · rw [probeLoop, if_pos (cand_mem parent s hlt)]
      have hstep : Nat.repr (j + 1 + 1) ++ suggSeq s j = suggSeq s (j + 1) := rfl
      rw [hstep, ih (j + 1) hlt]
      rcases Nat.lt_or_ge (n - (j + 1)) f with hc | hc
      · rw [if_pos hc, if_pos (by omega)]
      · rw [if_neg (by omega), if_neg (by omega)]
    · have hj' : j = n := by omega
      rw [hj']
      rw [probeLoop, if_neg (cand_not_mem parent s n), if_pos (by omega)]

/-! ## Claim C9 -/

/-- C9 (amended): the source loop carries no attempt cap and can never
answer 500 on account of the number of attempts; it is nonetheless a total
function of the (finite) store state — on a store of m records every probe
sequence finishes within m + 1 probes, because each colliding probe
strictly lengthens the candidate and so strictly shrinks the set of store
paths that can still collide.  The number of probes is unbounded across
store states (see the counterexample). -/
theorem c9_probe_total (paths : List String) (parent sugg : String)
    (counter : Nat) (f : DBFile) (target : String) :
    (probeLoop paths parent (paths.length + 1) counter sugg).isSome = true ∧
    (handlePutRelativeSuggested paths f target
      (paths.length + 1)).isSome = true := by
  constructor
  · exact probeLoop_total_aux paths parent (paths.length + 1) counter sugg
      (by have := staleCount_le paths (parent ++ bsSep ++ sugg); omega)
  · exact probeLoop_total_aux paths f.parentFolder (paths.length + 1) 1
      (initialSuggestion f target)
      (by
        have := staleCount_le paths
          (f.parentFolder ++ bsSep ++ initialSuggestion f target)
        omega)

/-- C9 counterexample: on the store holding the first 10 000 candidate
paths, the loop is still running after 10 000 probes (so it does not
terminate within a 10 000-attempt cap) and succeeds at probe 10 001 with an
ordinary Ok result — no 500 is ever produced for exceeding a cap. -/
theorem c9_probe_unbounded_cex :
    probeLoop (collidingPaths "p" "a" 10000) "p" 10000 1 "a" = none ∧
    (probeLoop (collidingPaths "p" "a" 10000) "p" 10001 1 "a").isSome
      = true := by
  have h1 := probeLoop_colliding "p" "a" 10000 10000 0 (by omega)
  have h2 := probeLoop_colliding "p" "a" 10000 10001 0 (by omega)
  rw [show suggSeq "a" 0 = "a" from rfl] at h1 h2
  rw [if_neg (by omega)] at h1
  rw [if_pos (by omega)] at h2
  exact ⟨h1, by rw [h2]; rfl⟩

/-! ## Claim C2 -/

/-- C2: for every size n accepted by the upload-request operation (0 < n,
and the operation only accepts n up to `MAX_FILE_SIZE`), exactly
⌈n / CHUNK_SIZE⌉ presigned part URLs are issued, and a size of exactly
k·CHUNK_SIZE yields exactly k URLs. -/
theorem c2_chunk_count (n k : Nat) (hn : 0 < n) (hmax : n ≤ MAX_FILE_SIZE) :
    chunkCount n CHUNK_SIZE = (n + CHUNK_SIZE - 1) / CHUNK_SIZE ∧
    chunkCount (k * CHUNK_SIZE) CHUNK_SIZE = k ∧
    ∃ uris uploadId,
      postUpload n = .accepted (Int.ofNat n) uris uploadId ∧
      uris.length = (n + CHUNK_SIZE - 1) / CHUNK_SIZE := by
  refine ⟨chunkCount_eq_ceil n hn, chunkCount_mul k, ?_⟩
  refine ⟨_, _, postUpload_accepted n hn hmax, ?_⟩
  simp [chunkCount_eq_ceil n hn]

/-- C2 witness: instantiation of `c2_chunk_count` at size 1 (one URL) and
multiple k = 2 (two URLs for 2·CHUNK_SIZE), the spec's edge cases. -/
theorem c2_chunk_count_witness :
    0 < 1 ∧ 1 ≤ MAX_FILE_SIZE ∧
    (chunkCount 1 CHUNK_SIZE = (1 + CHUNK_SIZE - 1) / CHUNK_SIZE ∧
     chunkCount (2 * CHUNK_SIZE) CHUNK_SIZE = 2 ∧
     ∃ uris uploadId,
       postUpload 1 = .accepted (Int.ofNat 1) uris uploadId ∧
       uris.length = (1 + CHUNK_SIZE - 1) / CHUNK_SIZE) :=
  ⟨by decide, by decide, c2_chunk_count 1 2 (by decide) (by decide)⟩
